import Mathlib

/-!
Shallow embedding of libs/hwui/Animator.cpp (BaseRenderNodeAnimator and its
concrete variants).  C++ floats are modelled as rationals, nsecs_t (int64
milliseconds in this file) as integers.  Fatal assertions
(LOG_ALWAYS_FATAL / LOG_ALWAYS_FATAL_IF) are modelled by returning none;
ALOGW warnings do not change state and are not modelled as data.
-/

/-- The play-state enum of Animator.h, in its declaration order
NOT_STARTED, RUNNING, FINISHED (comparisons in the source are integer
comparisons on this order). -/
inductive PlayState where
  | NOT_STARTED
  | RUNNING
  | FINISHED
deriving DecidableEq

/-- Numeric value of the C++ enum constant. -/
def PlayState.toNat : PlayState → Nat
  | .NOT_STARTED => 0
  | .RUNNING => 1
  | .FINISHED => 2

/-- Maximum of two play states under the enum order, as pushStaging
effectively computes it. -/
def PlayState.maxPS (p q : PlayState) : PlayState :=
  if p.toNat < q.toNat then q else p

/-- The state of a BaseRenderNodeAnimator (fields of Animator.h that
Animator.cpp reads or writes).  mInterpolator holds the interpolate
function when an interpolator object is set; mListener records whether a
finished listener is attached (its onAnimationFinished behaviour is
external). -/
structure BaseRenderNodeAnimator where
  mFinalValue : ℚ
  mDeltaValue : ℚ
  mFromValue : ℚ
  mInterpolator : Option (ℚ → ℚ)
  mStagingPlayState : PlayState
  mPlayState : PlayState
  mHasStartValue : Bool
  mStartTime : ℤ
  mDuration : ℤ
  mStartDelay : ℤ
  mListener : Bool

/-- The constructor BaseRenderNodeAnimator::BaseRenderNodeAnimator
(Animator.cpp lines 34-45); the listener smart pointer default-constructs
to null. -/
def BaseRenderNodeAnimator.ofFinalValue (finalValue : ℚ) : BaseRenderNodeAnimator :=
  { mFinalValue := finalValue
    mDeltaValue := 0
    mFromValue := 0
    mInterpolator := none
    mStagingPlayState := PlayState.NOT_STARTED
    mPlayState := PlayState.NOT_STARTED
    mHasStartValue := false
    mStartTime := 0
    mDuration := 300
    mStartDelay := 0
    mListener := false }

/-- Modelled from the spec: the control-side staging setter (declared in
Animator.h, not in Animator.cpp) assigns mStagingPlayState. -/
def setStagingPlayState (a : BaseRenderNodeAnimator) (s : PlayState) :
    BaseRenderNodeAnimator :=
  { a with mStagingPlayState := s }

/-- The TreeInfo fields Animator.cpp touches: frameTimeMs, the
out.hasAnimations output flag, and whether an animationHook is installed. -/
structure TreeInfo where
  frameTimeMs : ℤ
  hasAnimations : Bool
  animationHook : Bool

/-- checkMutable (lines 51-55): LOG_ALWAYS_FATAL_IF the staging play state
has left NOT_STARTED; none models the fatal abort. -/
def checkMutable (a : BaseRenderNodeAnimator) : Option Unit :=
  if a.mStagingPlayState ≠ PlayState.NOT_STARTED then none else some ()

/-- setInterpolator (lines 57-61): checkMutable, then replace the owned
interpolator. -/
def setInterpolator (a : BaseRenderNodeAnimator) (f : ℚ → ℚ) :
    Option BaseRenderNodeAnimator :=
  match checkMutable a with
  | none => none
  | some _ => some { a with mInterpolator := some f }

/-- doSetStartValue (lines 68-72). -/
def doSetStartValue (a : BaseRenderNodeAnimator) (value : ℚ) :
    BaseRenderNodeAnimator :=
  { a with mFromValue := value
           mDeltaValue := a.mFinalValue - value
           mHasStartValue := true }

/-- setStartValue (lines 63-66): checkMutable, then doSetStartValue. -/
def setStartValue (a : BaseRenderNodeAnimator) (value : ℚ) :
    Option BaseRenderNodeAnimator :=
  match checkMutable a with
  | none => none
  | some _ => some (doSetStartValue a value)

/-- setDuration (lines 74-77). -/
def setDuration (a : BaseRenderNodeAnimator) (duration : ℤ) :
    Option BaseRenderNodeAnimator :=
  match checkMutable a with
  | none => none
  | some _ => some { a with mDuration := duration }

/-- setStartDelay (lines 79-82). -/
def setStartDelay (a : BaseRenderNodeAnimator) (startDelay : ℤ) :
    Option BaseRenderNodeAnimator :=
  match checkMutable a with
  | none => none
  | some _ => some { a with mStartDelay := startDelay }

/-- transitionToRunning (lines 97-117).  The fatal frame-time check is the
none case; the ALOGW branches change nothing.  Installing the default
interpolator goes through setInterpolator exactly as the source does, so
it is subject to checkMutable.  defIntp stands for the external
Interpolator::createDefaultInterpolator(). -/
def transitionToRunning (a : BaseRenderNodeAnimator) (info : TreeInfo)
    (defIntp : ℚ → ℚ) : Option BaseRenderNodeAnimator :=
  if info.frameTimeMs ≤ 0 then none
  else
    let startTime := info.frameTimeMs + a.mStartDelay
    let a1 := { a with mStartTime := if startTime < 0 then 0 else startTime }
    if a1.mInterpolator.isNone then setInterpolator a1 defIntp
    else some a1

/-- pushStaging (lines 84-95).  targetValue stands for the virtual
getValue(target) call on the concrete variant. -/
def pushStaging (a : BaseRenderNodeAnimator) (targetValue : ℚ)
    (defIntp : ℚ → ℚ) (info : TreeInfo) : Option BaseRenderNodeAnimator :=
  let a0 := if a.mHasStartValue = false then doSetStartValue a targetValue else a
  if a0.mPlayState.toNat < a0.mStagingPlayState.toNat then
    let a1 := { a0 with mPlayState := a0.mStagingPlayState }
    if a1.mPlayState = PlayState.RUNNING then transitionToRunning a1 info defIntp
    else some a1
  else some a0

/-- A sequence of control-side sync points: before each commit the control
thread stores some staging play state, then pushStaging runs with that
frame context and target value. -/
def commitSeq (a : BaseRenderNodeAnimator)
    (steps : List (PlayState × ℚ × TreeInfo)) (defIntp : ℚ → ℚ) :
    Option BaseRenderNodeAnimator :=
  match steps with
  | [] => some a
  | (s, tv, info) :: rest =>
    match pushStaging (setStagingPlayState a s) tv defIntp info with
    | none => none
    | some a1 => commitSeq a1 rest defIntp

/-- callOnFinishedListener (lines 150-158): the listener is invoked
(directly, or routed through the animation hook) exactly when a listener
is attached; the result records whether an invocation happens. -/
def callOnFinishedListener (a : BaseRenderNodeAnimator) (info : TreeInfo) :
    Bool :=
  a.mListener

/-- The outcome of one animate call: the updated animator, the updated
frame info, the C++ return value, the value written to the target through
setValue (none when setValue is not reached), and whether the finished
listener was invoked during this call. -/
structure AnimateResult where
  anim : BaseRenderNodeAnimator
  info : TreeInfo
  finished : Bool
  written : Option ℚ
  listenerFired : Bool

/-- The progress fraction animate computes and feeds to the interpolator
(lines 129-136): the linear fraction while RUNNING with positive duration,
1 otherwise, then clamped at 1. -/
def rawFraction (a : BaseRenderNodeAnimator) (t : ℤ) : ℚ :=
  let f : ℚ :=
    if a.mPlayState = PlayState.RUNNING ∧ 0 < a.mDuration then
      ((t - a.mStartTime : ℤ) : ℚ) / ((a.mDuration : ℤ) : ℚ)
    else 1
  if 1 ≤ f then 1 else f

/-- animate (lines 119-148).  A null interpolator dereference is the none
case.  The written value is what the virtual setValue receives. -/
def animate (a : BaseRenderNodeAnimator) (info : TreeInfo) :
    Option AnimateResult :=
  if a.mPlayState.toNat < PlayState.RUNNING.toNat then
    some { anim := a, info := info, finished := false, written := none,
           listenerFired := false }
  else if a.mStartTime > info.frameTimeMs then
    some { anim := a, info := { info with hasAnimations := true },
           finished := false, written := none, listenerFired := false }
  else
    match a.mInterpolator with
    | none => none
    | some interp =>
      let fraction0 : ℚ :=
        if a.mPlayState = PlayState.RUNNING ∧ 0 < a.mDuration then
          ((info.frameTimeMs - a.mStartTime : ℤ) : ℚ) / ((a.mDuration : ℤ) : ℚ)
        else 1
      let fraction : ℚ := if 1 ≤ fraction0 then 1 else fraction0
      let a1 : BaseRenderNodeAnimator :=
        if 1 ≤ fraction0 then { a with mPlayState := PlayState.FINISHED } else a
      let value : ℚ := a.mFromValue + a.mDeltaValue * interp fraction
      if a1.mPlayState = PlayState.FINISHED then
        some { anim := a1, info := info, finished := true,
               written := some value, listenerFired := callOnFinishedListener a info }
      else
        some { anim := a1, info := { info with hasAnimations := true },
               finished := false, written := some value, listenerFired := false }

/-!  Paint variant (CanvasPropertyPaintAnimator, lines 233-266). -/

/-- The C cast (int)(q) on a rational: truncation toward zero. -/
def truncToInt (q : ℚ) : ℤ :=
  if 0 ≤ q then ⌊q⌋ else ⌈q⌉

/-- to_uint8 (lines 251-254): int c = (int)(value + .5f); clamp c to
[0, 255] and narrow to uint8_t. -/
def to_uint8 (value : ℚ) : ℕ :=
  let c := truncToInt (value + 1/2)
  (if c < 0 then 0 else if c > 255 then 255 else c).toNat

/-- The PaintField enum of the paint animator. -/
inductive PaintField where
  | STROKE_WIDTH
  | ALPHA
deriving DecidableEq

/-- The paint fields the animator can drive: a float stroke width and an
8-bit alpha channel. -/
structure PaintValue where
  strokeWidth : ℚ
  alpha : ℕ

/-- CanvasPropertyPaintAnimator::setValue (lines 256-266). -/
def paintSetValue (field : PaintField) (p : PaintValue) (value : ℚ) :
    PaintValue :=
  match field with
  | PaintField.STROKE_WIDTH => { p with strokeWidth := value }
  | PaintField.ALPHA => { p with alpha := to_uint8 value }

/-- CanvasPropertyPaintAnimator::getValue (lines 240-249). -/
def paintGetValue (field : PaintField) (p : PaintValue) : ℚ :=
  match field with
  | PaintField.STROKE_WIDTH => p.strokeWidth
  | PaintField.ALPHA => (p.alpha : ℚ)

/-!  RenderPropertyAnimator (lines 164-209). -/

/-- The RenderProperty enum of Animator.h, in the order the accessor table
is laid out (the getters in each table row name the property). -/
inductive RenderProperty where
  | TRANSLATION_X
  | TRANSLATION_Y
  | TRANSLATION_Z
  | SCALE_X
  | SCALE_Y
  | ROTATION
  | ROTATION_X
  | ROTATION_Y
  | X
  | Y
  | Z
  | ALPHA
deriving DecidableEq, Fintype

/-- Numeric value of the RenderProperty enum constant. -/
def RenderProperty.toNat : RenderProperty → Nat
  | .TRANSLATION_X => 0
  | .TRANSLATION_Y => 1
  | .TRANSLATION_Z => 2
  | .SCALE_X => 3
  | .SCALE_Y => 4
  | .ROTATION => 5
  | .ROTATION_X => 6
  | .ROTATION_Y => 7
  | .X => 8
  | .Y => 9
  | .Z => 10
  | .ALPHA => 11

/-- Modelled from the spec: RenderNode::DirtyPropertyMask (RenderNode.h is
not part of this file); a C++ enum of per-property dirty bits, distinct
constants for distinct names. -/
inductive DirtyPropertyMask where
  | GENERIC
  | TRANSLATION_X
  | TRANSLATION_Y
  | TRANSLATION_Z
  | SCALE_X
  | SCALE_Y
  | ROTATION
  | ROTATION_X
  | ROTATION_Y
  | X
  | Y
  | Z
  | ALPHA
  | DISPLAY_LIST
deriving DecidableEq

/-- Modelled from the spec: the float-valued property set of
RenderProperties (RenderProperties.h is not part of this file). -/
structure RenderProperties where
  translationX : ℚ
  translationY : ℚ
  translationZ : ℚ
  scaleX : ℚ
  scaleY : ℚ
  rotation : ℚ
  rotationX : ℚ
  rotationY : ℚ
  x : ℚ
  y : ℚ
  z : ℚ
  alpha : ℚ

/-- One row of the accessor table (lines 164-168). -/
structure PropertyAccessors where
  dirtyMask : DirtyPropertyMask
  getter : RenderProperties → ℚ
  setter : RenderProperties → ℚ → RenderProperties

/-- PROPERTY_ACCESSOR_LUT (lines 171-184), row for row; note rows 0 and 2
both carry RenderNode::TRANSLATION_X as their dirty mask, exactly as the
source is written. -/
def PROPERTY_ACCESSOR_LUT : List PropertyAccessors :=
  [ { dirtyMask := DirtyPropertyMask.TRANSLATION_X
      getter := fun p => p.translationX
      setter := fun p v => { p with translationX := v } }
  , { dirtyMask := DirtyPropertyMask.TRANSLATION_Y
      getter := fun p => p.translationY
      setter := fun p v => { p with translationY := v } }
  , { dirtyMask := DirtyPropertyMask.TRANSLATION_X
      getter := fun p => p.translationZ
      setter := fun p v => { p with translationZ := v } }
  , { dirtyMask := DirtyPropertyMask.SCALE_X
      getter := fun p => p.scaleX
      setter := fun p v => { p with scaleX := v } }
  , { dirtyMask := DirtyPropertyMask.SCALE_Y
      getter := fun p => p.scaleY
      setter := fun p v => { p with scaleY := v } }
  , { dirtyMask := DirtyPropertyMask.ROTATION
      getter := fun p => p.rotation
      setter := fun p v => { p with rotation := v } }
  , { dirtyMask := DirtyPropertyMask.ROTATION_X
      getter := fun p => p.rotationX
      setter := fun p v => { p with rotationX := v } }
  , { dirtyMask := DirtyPropertyMask.ROTATION_Y
      getter := fun p => p.rotationY
      setter := fun p v => { p with rotationY := v } }
  , { dirtyMask := DirtyPropertyMask.X
      getter := fun p => p.x
      setter := fun p v => { p with x := v } }
  , { dirtyMask := DirtyPropertyMask.Y
      getter := fun p => p.y
      setter := fun p v => { p with y := v } }
  , { dirtyMask := DirtyPropertyMask.Z
      getter := fun p => p.z
      setter := fun p v => { p with z := v } }
  , { dirtyMask := DirtyPropertyMask.ALPHA
      getter := fun p => p.alpha
      setter := fun p v => { p with alpha := v } }
  ]

/-- The mPropertyAccess binding of the RenderPropertyAnimator constructor
(line 188): the table row indexed by the property enum value. -/
def propertyAccess (p : RenderProperty) : PropertyAccessors :=
  PROPERTY_ACCESSOR_LUT.get ⟨p.toNat, by cases p <;> decide⟩

/-- The RenderNode state onAttached touches: the staging property copy and
the staging dirty bits.  Modelled from the spec: isPropertyFieldDirty and
mutateStagingProperties are declared in RenderNode.h, not in this file. -/
structure RenderNode where
  stagingProperties : RenderProperties
  dirtyFields : DirtyPropertyMask → Bool

/-- RenderPropertyAnimator::onAttached (lines 191-197): possibly capture
the staging value as start value (through setStartValue, hence subject to
checkMutable), then write finalValue into the staging copy. -/
def onAttached (a : BaseRenderNodeAnimator) (p : RenderProperty)
    (target : RenderNode) : Option (BaseRenderNodeAnimator × RenderNode) :=
  let acc := propertyAccess p
  let step1 : Option BaseRenderNodeAnimator :=
    if a.mHasStartValue = false ∧ target.dirtyFields acc.dirtyMask = true then
      setStartValue a (acc.getter target.stagingProperties)
    else some a
  match step1 with
  | none => none
  | some a1 =>
    some (a1, { target with
                  stagingProperties := acc.setter target.stagingProperties a1.mFinalValue })

/-!  Concrete instances used to exercise the theorems below. -/

/-- A running animator: from 20 toward 100 over 1000 ms, identity
interpolator, listener attached. -/
def aRunEx : BaseRenderNodeAnimator :=
  { mFinalValue := 100, mDeltaValue := 80, mFromValue := 20,
    mInterpolator := some id, mStagingPlayState := PlayState.RUNNING,
    mPlayState := PlayState.RUNNING, mHasStartValue := true, mStartTime := 0,
    mDuration := 1000, mStartDelay := 0, mListener := true }

/-- The same animator already in the Finished state. -/
def aFinEx : BaseRenderNodeAnimator :=
  { mFinalValue := 100, mDeltaValue := 80, mFromValue := 20,
    mInterpolator := some id, mStagingPlayState := PlayState.FINISHED,
    mPlayState := PlayState.FINISHED, mHasStartValue := true, mStartTime := 0,
    mDuration := 1000, mStartDelay := 0, mListener := true }

/-- A zero-duration animator: from 1 toward 5, running since 16 ms. -/
def aZeroEx : BaseRenderNodeAnimator :=
  { mFinalValue := 5, mDeltaValue := 4, mFromValue := 1,
    mInterpolator := some id, mStagingPlayState := PlayState.RUNNING,
    mPlayState := PlayState.RUNNING, mHasStartValue := true, mStartTime := 16,
    mDuration := 0, mStartDelay := 0, mListener := false }

/-- A paint with stroke width 1 and opaque alpha. -/
def pEx : PaintValue := { strokeWidth := 1, alpha := 255 }

/-- A configured animator whose staging state has been advanced to Running
but whose committed state is still NotStarted. -/
def aCfg : BaseRenderNodeAnimator :=
  { mFinalValue := 100, mDeltaValue := 95, mFromValue := 5,
    mInterpolator := some id, mStagingPlayState := PlayState.RUNNING,
    mPlayState := PlayState.NOT_STARTED, mHasStartValue := true, mStartTime := 0,
    mDuration := 300, mStartDelay := 0, mListener := false }

/-- A concrete property set. -/
def rpropsEx : RenderProperties :=
  { translationX := 1, translationY := 2, translationZ := 3, scaleX := 4, scaleY := 5,
    rotation := 6, rotationX := 7, rotationY := 8, x := 9, y := 10, z := 11, alpha := 12 }

/-- A target whose alpha staging bit is dirty. -/
def nodeEx : RenderNode :=
  { stagingProperties := rpropsEx,
    dirtyFields := fun m => decide (m = DirtyPropertyMask.ALPHA) }

/-!  General lemmas about the evaluation step. -/

/-- In the main body of animate, whenever the clamped fraction is 1 the
call finishes: the play state is written FINISHED, setValue receives the
value interpolated at fraction 1, the listener is invoked exactly when one
is attached, and the call returns true. -/
theorem animate_eq_finishedCase (a : BaseRenderNodeAnimator) (interp : ℚ → ℚ)
    (info : TreeInfo)
    (hps : a.mPlayState = PlayState.RUNNING ∨ a.mPlayState = PlayState.FINISHED)
    (hintp : a.mInterpolator = some interp)
    (hstart : a.mStartTime ≤ info.frameTimeMs)
    (hfr : rawFraction a info.frameTimeMs = 1) :
    animate a info = some { anim := { a with mPlayState := PlayState.FINISHED },
                            info := info, finished := true,
                            written := some (a.mFromValue + a.mDeltaValue * interp 1),
                            listenerFired := a.mListener } := by
  have hnlt : ¬ (a.mStartTime > info.frameTimeMs) := not_lt.mpr hstart
  have hcast : ((info.frameTimeMs - a.mStartTime : ℤ) : ℚ) =
      (info.frameTimeMs : ℚ) - (a.mStartTime : ℚ) := by push_cast; ring
  unfold rawFraction at hfr
  rw [hcast] at hfr
  by_cases hc : a.mPlayState = PlayState.RUNNING ∧ 0 < a.mDuration
  · rw [if_pos hc] at hfr
    by_cases h1 : 1 ≤ ((info.frameTimeMs : ℚ) - (a.mStartTime : ℚ)) / ((a.mDuration : ℤ) : ℚ)
    · simp only [animate, hc.1, PlayState.toNat, hintp, hnlt, if_neg, if_false,
        lt_self_iff_false, if_pos hc, callOnFinishedListener]
      simp [hc.2, h1]
    · rw [if_neg h1] at hfr
      exact absurd (le_of_eq hfr.symm) h1
  · rcases hps with h | h
    · have hd : ¬ 0 < a.mDuration := fun hdd => hc ⟨h, hdd⟩
      simp only [animate, h, PlayState.toNat, hintp, hnlt, lt_self_iff_false,
        if_false, callOnFinishedListener]
      simp [hd]
    · simp only [animate, h, PlayState.toNat, hintp, hnlt, if_neg hc,
        callOnFinishedListener]
      simp

/-- In the main body of animate, while the fraction is still below 1 the
animator stays in its state, the still-animating flag is set, setValue
receives the interpolated fraction, and the call returns false. -/
theorem animate_eq_midCase (a : BaseRenderNodeAnimator) (interp : ℚ → ℚ)
    (info : TreeInfo)
    (hrun : a.mPlayState = PlayState.RUNNING)
    (hdur : 0 < a.mDuration)
    (hintp : a.mInterpolator = some interp)
    (hstart : a.mStartTime ≤ info.frameTimeMs)
    (hfr : rawFraction a info.frameTimeMs < 1) :
    animate a info = some { anim := a,
                            info := { info with hasAnimations := true },
                            finished := false,
                            written := some (a.mFromValue +
                              a.mDeltaValue * interp (rawFraction a info.frameTimeMs)),
                            listenerFired := false } := by
  have hnlt : ¬ (a.mStartTime > info.frameTimeMs) := not_lt.mpr hstart
  have hc : a.mPlayState = PlayState.RUNNING ∧ 0 < a.mDuration := ⟨hrun, hdur⟩
  have hcast : ((info.frameTimeMs - a.mStartTime : ℤ) : ℚ) =
      (info.frameTimeMs : ℚ) - (a.mStartTime : ℚ) := by push_cast; ring
  have h1 : ¬ 1 ≤ ((info.frameTimeMs : ℚ) - (a.mStartTime : ℚ)) / ((a.mDuration : ℤ) : ℚ) := by
    intro hge
    rw [rawFraction, if_pos hc, hcast, if_pos hge] at hfr
    exact absurd hfr (lt_irrefl 1)
  have hq : rawFraction a info.frameTimeMs =
      ((info.frameTimeMs : ℚ) - (a.mStartTime : ℚ)) / ((a.mDuration : ℤ) : ℚ) := by
    rw [rawFraction, if_pos hc, hcast, if_neg h1]
  simp only [animate, hrun, PlayState.toNat, hintp, hnlt, lt_self_iff_false,
    if_false, hq, callOnFinishedListener]
  simp [hdur, h1, hrun]

/-- Once the committed play state is FINISHED it never leaves FINISHED. -/
theorem rawFraction_eq_one_of_finished (a : BaseRenderNodeAnimator) (t : ℤ)
    (hfin : a.mPlayState = PlayState.FINISHED) : rawFraction a t = 1 := by
  simp [rawFraction, hfin]

/-- With a non-positive duration the computed fraction is immediately 1. -/
theorem rawFraction_eq_one_of_nodur (a : BaseRenderNodeAnimator) (t : ℤ)
    (hdur : a.mDuration ≤ 0) : rawFraction a t = 1 := by
  simp [rawFraction, not_lt.mpr hdur]

/-- Once a full duration has elapsed the computed fraction is 1. -/
theorem rawFraction_eq_one_of_elapsed (a : BaseRenderNodeAnimator) (t : ℤ)
    (hrun : a.mPlayState = PlayState.RUNNING) (hdur : 0 < a.mDuration)
    (ht : a.mStartTime + a.mDuration ≤ t) : rawFraction a t = 1 := by
  have hc : a.mPlayState = PlayState.RUNNING ∧ 0 < a.mDuration := ⟨hrun, hdur⟩
  have hd : (0 : ℚ) < ((a.mDuration : ℤ) : ℚ) := by exact_mod_cast hdur
  have hge : 1 ≤ ((t - a.mStartTime : ℤ) : ℚ) / ((a.mDuration : ℤ) : ℚ) := by
    rw [le_div_iff₀ hd, one_mul]
    exact_mod_cast (by omega : a.mDuration ≤ t - a.mStartTime)
  simp only [rawFraction, if_pos hc, if_pos hge]

/-- For a running animator with positive duration evaluated at or after
its start time, the fraction is the linear ratio clamped to the unit
interval. -/
theorem rawFraction_eq_clamp (a : BaseRenderNodeAnimator) (t : ℤ)
    (hrun : a.mPlayState = PlayState.RUNNING) (hdur : 0 < a.mDuration)
    (hstart : a.mStartTime ≤ t) :
    rawFraction a t =
      min (max (((t - a.mStartTime : ℤ) : ℚ) / ((a.mDuration : ℤ) : ℚ)) 0) 1 := by
  have hc : a.mPlayState = PlayState.RUNNING ∧ 0 < a.mDuration := ⟨hrun, hdur⟩
  have hd : (0 : ℚ) ≤ ((a.mDuration : ℤ) : ℚ) := by exact_mod_cast hdur.le
  have hn : (0 : ℚ) ≤ ((t - a.mStartTime : ℤ) : ℚ) := by
    exact_mod_cast (by omega : (0:ℤ) ≤ t - a.mStartTime)
  have hq0 : (0 : ℚ) ≤ ((t - a.mStartTime : ℤ) : ℚ) / ((a.mDuration : ℤ) : ℚ) :=
    div_nonneg hn hd
  rcases le_or_lt 1 (((t - a.mStartTime : ℤ) : ℚ) / ((a.mDuration : ℤ) : ℚ)) with h | h
  · simp only [rawFraction, if_pos hc, if_pos h, max_eq_left hq0, min_eq_right h]
  · simp only [rawFraction, if_pos hc, if_neg (not_le.mpr h), max_eq_left hq0,
      min_eq_left h.le]

/-- The computed fraction is non-decreasing in the frame time. -/
theorem rawFraction_mono (a : BaseRenderNodeAnimator) (t1 t2 : ℤ)
    (hrun : a.mPlayState = PlayState.RUNNING) (hdur : 0 < a.mDuration)
    (h12 : t1 ≤ t2) : rawFraction a t1 ≤ rawFraction a t2 := by
  have hc : a.mPlayState = PlayState.RUNNING ∧ 0 < a.mDuration := ⟨hrun, hdur⟩
  have hd : (0 : ℚ) < ((a.mDuration : ℤ) : ℚ) := by exact_mod_cast hdur
  have hq : ((t1 - a.mStartTime : ℤ) : ℚ) / ((a.mDuration : ℤ) : ℚ) ≤
      ((t2 - a.mStartTime : ℤ) : ℚ) / ((a.mDuration : ℤ) : ℚ) := by
    refine (div_le_div_iff_of_pos_right hd).mpr ?_
    exact_mod_cast (by omega : t1 - a.mStartTime ≤ t2 - a.mStartTime)
  simp only [rawFraction, if_pos hc]
  split_ifs with h1 h2
  · exact le_refl 1
  · exact absurd (le_trans h1 hq) h2
  · exact (not_le.mp h1).le
  · exact hq

/-- The computed fraction never exceeds 1. -/
theorem rawFraction_le_one (a : BaseRenderNodeAnimator) (t : ℤ) :
    rawFraction a t ≤ 1 := by
  by_cases hc : a.mPlayState = PlayState.RUNNING ∧ 0 < a.mDuration
  · simp only [rawFraction, if_pos hc]
    split_ifs with h
    · exact le_refl 1
    · exact (not_le.mp h).le
  · simp only [rawFraction, if_neg hc]
    simp

/-- Evaluating a FINISHED animator leaves it FINISHED, for every frame
context. -/
theorem animate_finished_playState (b : BaseRenderNodeAnimator) (g : ℚ → ℚ)
    (i2 : TreeInfo) (hfin : b.mPlayState = PlayState.FINISHED)
    (hintp : b.mInterpolator = some g) :
    (animate b i2).map (fun r => r.anim.mPlayState) = some PlayState.FINISHED := by
  by_cases hst : b.mStartTime ≤ i2.frameTimeMs
  · rw [animate_eq_finishedCase b g i2 (Or.inr hfin) hintp hst
      (rawFraction_eq_one_of_finished b i2.frameTimeMs hfin)]
    simp
  · rw [animate]
    rw [if_neg (by simp [hfin, PlayState.toNat]), if_pos (not_le.mp hst)]
    simp [hfin]

/-!  General lemmas about the commit step. -/

/-- The enum maximum dominates its left argument. -/
theorem maxPS_left_le (p q : PlayState) : p.toNat ≤ (PlayState.maxPS p q).toNat := by
  cases p <;> cases q <;> decide

/-- When activation succeeds it does not touch either play state. -/
theorem transitionToRunning_keeps_plays (a : BaseRenderNodeAnimator) (info : TreeInfo)
    (d : ℚ → ℚ) (a2 : BaseRenderNodeAnimator)
    (h : transitionToRunning a info d = some a2) :
    a2.mPlayState = a.mPlayState ∧ a2.mStagingPlayState = a.mStagingPlayState := by
  simp only [transitionToRunning, setInterpolator, checkMutable] at h
  split_ifs at h <;>
    first
      | exact Option.noConfusion h
      | (simp only [Option.some.injEq] at h; subst h; exact ⟨rfl, rfl⟩)

/-- A successful commit leaves the committed play state at the enum
maximum of its previous value and the staging value. -/
theorem pushStaging_playState (a : BaseRenderNodeAnimator) (tv : ℚ) (d : ℚ → ℚ)
    (info : TreeInfo) (a2 : BaseRenderNodeAnimator)
    (h : pushStaging a tv d info = some a2) :
    a2.mPlayState = PlayState.maxPS a.mPlayState a.mStagingPlayState := by
  simp only [pushStaging] at h
  by_cases hsv : a.mHasStartValue = false
  · rw [if_pos hsv] at h
    simp only [doSetStartValue] at h
    by_cases hlt : a.mPlayState.toNat < a.mStagingPlayState.toNat
    · rw [if_pos hlt] at h
      rw [PlayState.maxPS, if_pos hlt]
      by_cases hrun : a.mStagingPlayState = PlayState.RUNNING
      · rw [if_pos (by simp [hrun])] at h
        rcases transitionToRunning_keeps_plays _ info d a2 h with ⟨h1, _⟩
        simpa using h1
      · rw [if_neg (by simp [hrun])] at h
        simp only [Option.some.injEq] at h
        subst h
        rfl
    · rw [if_neg hlt] at h
      rw [PlayState.maxPS, if_neg hlt]
      simp only [Option.some.injEq] at h
      subst h
      rfl
  · rw [if_neg hsv] at h
    by_cases hlt : a.mPlayState.toNat < a.mStagingPlayState.toNat
    · rw [if_pos hlt] at h
      rw [PlayState.maxPS, if_pos hlt]
      by_cases hrun : a.mStagingPlayState = PlayState.RUNNING
      · rw [if_pos (by simp [hrun])] at h
        rcases transitionToRunning_keeps_plays _ info d a2 h with ⟨h1, _⟩
        simpa using h1
      · rw [if_neg (by simp [hrun])] at h
        simp only [Option.some.injEq] at h
        subst h
        rfl
    · rw [if_neg hlt] at h
      rw [PlayState.maxPS, if_neg hlt]
      simp only [Option.some.injEq] at h
      subst h
      rfl

/-- Over any successful sequence of staging writes and commits, the
committed play state never decreases. -/
theorem commitSeq_play_mono (steps : List (PlayState × ℚ × TreeInfo)) (d : ℚ → ℚ) :
    ∀ a a2 : BaseRenderNodeAnimator, commitSeq a steps d = some a2 →
      a.mPlayState.toNat ≤ a2.mPlayState.toNat := by
  induction steps with
  | nil =>
    intro a a2 h
    simp only [commitSeq, Option.some.injEq] at h
    subst h
    exact le_refl _
  | cons s rest ih =>
    intro a a2 h
    rcases s with ⟨ps, tv, info⟩
    simp only [commitSeq] at h
    cases hp : pushStaging (setStagingPlayState a ps) tv d info with
    | none => rw [hp] at h; exact absurd h (by simp)
    | some a1 =>
      rw [hp] at h
      have h1 : a1.mPlayState = PlayState.maxPS (setStagingPlayState a ps).mPlayState
          (setStagingPlayState a ps).mStagingPlayState :=
        pushStaging_playState _ tv d info a1 hp
      have h2 : a.mPlayState.toNat ≤ a1.mPlayState.toNat := by
        rw [h1]
        exact maxPS_left_le _ _
      exact le_trans h2 (ih a1 a2 h)

/-- Writing then reading the same property row returns the written value. -/
theorem propertyAccess_get_set (p : RenderProperty) (props : RenderProperties) (v : ℚ) :
    (propertyAccess p).getter ((propertyAccess p).setter props v) = v := by
  cases p <;> rfl

/-!  The claims. -/

/-- Claim C1: for a Running animator with duration d greater than 0
evaluated at any frame time t at or after startTime, animate feeds the
interpolator the raw fraction f equal to the ratio (t - startTime) / d
clamped to the unit interval and writes fromValue + deltaValue * interp f
to the target; f is non-decreasing in t; and when t is at or after
startTime + d, with the identity interpolator and the delta invariant,
exactly finalValue is written, the play state transitions to Finished, and
every later evaluation leaves it Finished (so the transition happens
exactly once). -/
theorem claim1_running_evaluation (a : BaseRenderNodeAnimator) (interp : ℚ → ℚ)
    (t t1 t2 : ℤ) (b k : Bool) (i2 : TreeInfo)
    (hrun : a.mPlayState = PlayState.RUNNING)
    (hdur : 0 < a.mDuration)
    (hintp : a.mInterpolator = some interp)
    (hstart : a.mStartTime ≤ t)
    (h1 : a.mStartTime ≤ t1) (h12 : t1 ≤ t2) :
    (animate a { frameTimeMs := t, hasAnimations := b, animationHook := k }).map
        (fun r => r.written) =
      some (some (a.mFromValue + a.mDeltaValue * interp (rawFraction a t)))
    ∧ rawFraction a t =
        min (max (((t - a.mStartTime : ℤ) : ℚ) / ((a.mDuration : ℤ) : ℚ)) 0) 1
    ∧ rawFraction a t1 ≤ rawFraction a t2
    ∧ (a.mStartTime + a.mDuration ≤ t → interp = id →
        a.mDeltaValue = a.mFinalValue - a.mFromValue →
        (animate a { frameTimeMs := t, hasAnimations := b, animationHook := k }).map
            (fun r => (r.written, r.anim.mPlayState)) =
          some (some a.mFinalValue, PlayState.FINISHED)
        ∧ ((animate a { frameTimeMs := t, hasAnimations := b, animationHook := k }).bind
              (fun r => animate r.anim i2)).map (fun r2 => r2.anim.mPlayState) =
            some PlayState.FINISHED) := by
  refine ⟨?_, rawFraction_eq_clamp a t hrun hdur hstart,
    rawFraction_mono a t1 t2 hrun hdur h12, ?_⟩
  · rcases (rawFraction_le_one a t).lt_or_eq with hf | hf
    · rw [animate_eq_midCase a interp
        { frameTimeMs := t, hasAnimations := b, animationHook := k } hrun hdur hintp hstart hf]
      simp
    · rw [animate_eq_finishedCase a interp
        { frameTimeMs := t, hasAnimations := b, animationHook := k } (Or.inl hrun) hintp hstart hf]
      simp [hf]
  · intro ht hid hdelta
    have hf : rawFraction a t = 1 := rawFraction_eq_one_of_elapsed a t hrun hdur ht
    rw [animate_eq_finishedCase a interp
      { frameTimeMs := t, hasAnimations := b, animationHook := k } (Or.inl hrun) hintp hstart hf]
    constructor
    · simp [hid, hdelta]
    · exact animate_finished_playState _ interp i2 rfl hintp

/-- Claim C1 witness: the running example animator evaluated at frame time
1500 (past its 1000 ms duration) writes exactly 100 and finishes. -/
theorem claim1_witness :
    (animate aRunEx { frameTimeMs := 1500, hasAnimations := false, animationHook := false }).map
        (fun r => r.written) =
      some (some (aRunEx.mFromValue + aRunEx.mDeltaValue * id (rawFraction aRunEx 1500)))
    ∧ rawFraction aRunEx 1500 =
        min (max (((1500 - aRunEx.mStartTime : ℤ) : ℚ) / ((aRunEx.mDuration : ℤ) : ℚ)) 0) 1
    ∧ rawFraction aRunEx 300 ≤ rawFraction aRunEx 700
    ∧ (aRunEx.mStartTime + aRunEx.mDuration ≤ 1500 → (id : ℚ → ℚ) = id →
        aRunEx.mDeltaValue = aRunEx.mFinalValue - aRunEx.mFromValue →
        (animate aRunEx { frameTimeMs := 1500, hasAnimations := false, animationHook := false }).map
            (fun r => (r.written, r.anim.mPlayState)) =
          some (some aRunEx.mFinalValue, PlayState.FINISHED)
        ∧ ((animate aRunEx { frameTimeMs := 1500, hasAnimations := false, animationHook := false }).bind
              (fun r => animate r.anim { frameTimeMs := 2500, hasAnimations := false, animationHook := false })).map
            (fun r2 => r2.anim.mPlayState) =
            some PlayState.FINISHED) :=
  claim1_running_evaluation aRunEx id 1500 300 700 false false
    { frameTimeMs := 2500, hasAnimations := false, animationHook := false }
    rfl (by decide) rfl (by decide) (by decide) (by decide)

/-- Claim C2 counterexample: evaluating an animator that is already
Finished is not a no-op; at frame time 2000 the finished example animator
writes 100 to the target again and re-invokes the listener. -/
theorem claim2_counterexample :
    (animate aFinEx { frameTimeMs := 2000, hasAnimations := false, animationHook := false }).map
      (fun r => (r.written, r.listenerFired)) = some (some 100, true) := by
  rw [animate_eq_finishedCase aFinEx id
    { frameTimeMs := 2000, hasAnimations := false, animationHook := false }
    (Or.inr rfl) rfl (by decide) (rawFraction_eq_one_of_finished aFinEx 2000 rfl)]
  simp [aFinEx]
  norm_num

/-- Claim C2 (amended): once playState is Finished, a subsequent animate
call at a frame time at or after startTime evaluates again: it writes
fromValue + deltaValue * interp 1 to the target, invokes the listener
exactly when one is attached, returns true, and leaves the state
Finished.  At-most-once listener delivery therefore relies on the caller
contract that an animator is removed after animate returns true. -/
theorem claim2_finished_reevaluation (a : BaseRenderNodeAnimator) (interp : ℚ → ℚ)
    (t : ℤ) (b k : Bool)
    (hfin : a.mPlayState = PlayState.FINISHED)
    (hintp : a.mInterpolator = some interp)
    (hstart : a.mStartTime ≤ t) :
    (animate a { frameTimeMs := t, hasAnimations := b, animationHook := k }).map
        (fun r => (r.finished, r.written, r.listenerFired, r.anim.mPlayState)) =
      some (true, some (a.mFromValue + a.mDeltaValue * interp 1), a.mListener,
        PlayState.FINISHED) := by
  rw [animate_eq_finishedCase a interp
    { frameTimeMs := t, hasAnimations := b, animationHook := k }
    (Or.inr hfin) hintp hstart (rawFraction_eq_one_of_finished a t hfin)]
  simp

/-- Claim C2 witness: the finished example animator re-evaluated at frame
time 2000. -/
theorem claim2_witness :
    (animate aFinEx { frameTimeMs := 2000, hasAnimations := false, animationHook := false }).map
        (fun r => (r.finished, r.written, r.listenerFired, r.anim.mPlayState)) =
      some (true, some (aFinEx.mFromValue + aFinEx.mDeltaValue * id 1), aFinEx.mListener,
        PlayState.FINISHED) :=
  claim2_finished_reevaluation aFinEx id 2000 false false rfl rfl (by decide)

/-- Claim C3: after any successful commit the committed play state equals
the maximum of its previous value and the staging value in the order
NotStarted, Running, Finished, hence never decreases; and across any
successful sequence of staging writes followed by commits it never
decreases either. -/
theorem claim3_monotonic_commit (a : BaseRenderNodeAnimator) (tv : ℚ) (d : ℚ → ℚ)
    (info : TreeInfo) (a2 a3 : BaseRenderNodeAnimator)
    (steps : List (PlayState × ℚ × TreeInfo))
    (hpush : pushStaging a tv d info = some a2)
    (hseq : commitSeq a steps d = some a3) :
    a2.mPlayState = PlayState.maxPS a.mPlayState a.mStagingPlayState
    ∧ a.mPlayState.toNat ≤ a2.mPlayState.toNat
    ∧ a.mPlayState.toNat ≤ a3.mPlayState.toNat := by
  have h1 := pushStaging_playState a tv d info a2 hpush
  refine ⟨h1, ?_, commitSeq_play_mono steps d a a3 hseq⟩
  rw [h1]
  exact maxPS_left_le _ _

/-- Claim C3 witness: the staged example animator committed once at frame
time 16, and committed through a two-step sequence whose second step
regresses the staging state to NotStarted without regressing the committed
state. -/
theorem claim3_witness :
    ({ aCfg with mPlayState := PlayState.RUNNING, mStartTime := 16 } :
        BaseRenderNodeAnimator).mPlayState =
      PlayState.maxPS aCfg.mPlayState aCfg.mStagingPlayState
    ∧ aCfg.mPlayState.toNat ≤
        ({ aCfg with mPlayState := PlayState.RUNNING, mStartTime := 16 } :
          BaseRenderNodeAnimator).mPlayState.toNat
    ∧ aCfg.mPlayState.toNat ≤
        ({ aCfg with mStagingPlayState := PlayState.NOT_STARTED,
                     mPlayState := PlayState.RUNNING, mStartTime := 16 } :
          BaseRenderNodeAnimator).mPlayState.toNat :=
  claim3_monotonic_commit aCfg 5 id
    { frameTimeMs := 16, hasAnimations := false, animationHook := false } _ _
    [(PlayState.RUNNING, 5, { frameTimeMs := 16, hasAnimations := false, animationHook := false }),
     (PlayState.NOT_STARTED, 7, { frameTimeMs := 32, hasAnimations := false, animationHook := false })]
    rfl rfl

/-- Claim C4: a Running animator with non-positive duration, at the first
evaluation at or after startTime, computes fraction 1, writes exactly
finalValue (given the delta invariant and an interpolator fixing 1),
transitions to Finished and returns true; and the paint variant bound to
stroke width with finalValue 5 then sets the stroke width to exactly 5. -/
theorem claim4_zero_duration (a : BaseRenderNodeAnimator) (interp : ℚ → ℚ)
    (t : ℤ) (b k : Bool) (p : PaintValue)
    (hrun : a.mPlayState = PlayState.RUNNING)
    (hdur : a.mDuration ≤ 0)
    (hintp : a.mInterpolator = some interp)
    (hone : interp 1 = 1)
    (hdelta : a.mDeltaValue = a.mFinalValue - a.mFromValue)
    (hstart : a.mStartTime ≤ t) :
    (animate a { frameTimeMs := t, hasAnimations := b, animationHook := k }).map
        (fun r => (r.finished, r.written, r.anim.mPlayState)) =
      some (true, some a.mFinalValue, PlayState.FINISHED)
    ∧ (a.mFinalValue = 5 →
        (paintSetValue PaintField.STROKE_WIDTH p a.mFinalValue).strokeWidth = 5) := by
  constructor
  · rw [animate_eq_finishedCase a interp
      { frameTimeMs := t, hasAnimations := b, animationHook := k }
      (Or.inl hrun) hintp hstart (rawFraction_eq_one_of_nodur a t hdur)]
    simp [hone, hdelta]
  · intro h5
    simp [paintSetValue, h5]

/-- Claim C4 witness: the zero-duration example paint animator (final 5,
from 1) evaluated right at its start time finishes and writes 5, and the
stroke-width setter stores exactly 5. -/
theorem claim4_witness :
    (animate aZeroEx { frameTimeMs := 16, hasAnimations := false, animationHook := false }).map
        (fun r => (r.finished, r.written, r.anim.mPlayState)) =
      some (true, some aZeroEx.mFinalValue, PlayState.FINISHED)
    ∧ (aZeroEx.mFinalValue = 5 →
        (paintSetValue PaintField.STROKE_WIDTH pEx aZeroEx.mFinalValue).strokeWidth = 5) :=
  claim4_zero_duration aZeroEx id 16 false false pEx rfl (by decide) rfl rfl
    (by norm_num [aZeroEx]) (by decide)

/-- Claim C5: evaluating the commit of a default-constructed animator
(no interpolator ever set) whose staging state is Running, at the positive
frame time 10: instead of installing the default interpolator, activation
aborts fatally, because transitionToRunning installs the default through
setInterpolator, whose checkMutable fires now that stagingPlayState is
Running. -/
theorem claim5_default_interpolator_fatal :
    pushStaging (setStagingPlayState (BaseRenderNodeAnimator.ofFinalValue 42) PlayState.RUNNING)
      0 id { frameTimeMs := 10, hasAnimations := false, animationHook := false } = none := by
  rfl

/-- Claim C6: each configuration setter fails fatally exactly when
stagingPlayState has left NotStarted, and otherwise stores the new value;
setStartValue additionally derives deltaValue and sets hasStartValue. -/
theorem claim6_setters (a : BaseRenderNodeAnimator) (f : ℚ → ℚ) (d sd : ℤ) (v : ℚ) :
    (setInterpolator a f = none ↔ a.mStagingPlayState ≠ PlayState.NOT_STARTED)
    ∧ (setDuration a d = none ↔ a.mStagingPlayState ≠ PlayState.NOT_STARTED)
    ∧ (setStartDelay a sd = none ↔ a.mStagingPlayState ≠ PlayState.NOT_STARTED)
    ∧ (setStartValue a v = none ↔ a.mStagingPlayState ≠ PlayState.NOT_STARTED)
    ∧ (a.mStagingPlayState = PlayState.NOT_STARTED →
        setInterpolator a f = some { a with mInterpolator := some f }
        ∧ setDuration a d = some { a with mDuration := d }
        ∧ setStartDelay a sd = some { a with mStartDelay := sd }
        ∧ setStartValue a v = some { a with mFromValue := v,
                                            mDeltaValue := a.mFinalValue - v,
                                            mHasStartValue := true }) := by
  by_cases hs : a.mStagingPlayState = PlayState.NOT_STARTED <;>
    simp [setInterpolator, setDuration, setStartDelay, setStartValue, doSetStartValue,
      checkMutable, hs]

/-- Claim C6 witness: the setters applied to a freshly constructed
animator. -/
theorem claim6_witness :
    (setInterpolator (BaseRenderNodeAnimator.ofFinalValue 100) id = none ↔
      (BaseRenderNodeAnimator.ofFinalValue 100).mStagingPlayState ≠ PlayState.NOT_STARTED)
    ∧ (setDuration (BaseRenderNodeAnimator.ofFinalValue 100) 500 = none ↔
        (BaseRenderNodeAnimator.ofFinalValue 100).mStagingPlayState ≠ PlayState.NOT_STARTED)
    ∧ (setStartDelay (BaseRenderNodeAnimator.ofFinalValue 100) 250 = none ↔
        (BaseRenderNodeAnimator.ofFinalValue 100).mStagingPlayState ≠ PlayState.NOT_STARTED)
    ∧ (setStartValue (BaseRenderNodeAnimator.ofFinalValue 100) 30 = none ↔
        (BaseRenderNodeAnimator.ofFinalValue 100).mStagingPlayState ≠ PlayState.NOT_STARTED)
    ∧ ((BaseRenderNodeAnimator.ofFinalValue 100).mStagingPlayState = PlayState.NOT_STARTED →
        setInterpolator (BaseRenderNodeAnimator.ofFinalValue 100) id =
          some { BaseRenderNodeAnimator.ofFinalValue 100 with mInterpolator := some id }
        ∧ setDuration (BaseRenderNodeAnimator.ofFinalValue 100) 500 =
            some { BaseRenderNodeAnimator.ofFinalValue 100 with mDuration := 500 }
        ∧ setStartDelay (BaseRenderNodeAnimator.ofFinalValue 100) 250 =
            some { BaseRenderNodeAnimator.ofFinalValue 100 with mStartDelay := 250 }
        ∧ setStartValue (BaseRenderNodeAnimator.ofFinalValue 100) 30 =
            some { BaseRenderNodeAnimator.ofFinalValue 100 with
                     mFromValue := 30,
                     mDeltaValue := (BaseRenderNodeAnimator.ofFinalValue 100).mFinalValue - 30,
                     mHasStartValue := true }) :=
  claim6_setters (BaseRenderNodeAnimator.ofFinalValue 100) id 500 250 30

/-- Claim C7: to_uint8 rounds to the nearest integer (ties upward) and
clamps into the byte range, and in particular maps -10, 0, 127.6, 255 and
300 to 0, 0, 128, 255 and 255. -/
theorem claim7_to_uint8 (v : ℚ) :
    ((to_uint8 v : ℕ) : ℤ) = max 0 (min 255 ⌊v + 1/2⌋)
    ∧ to_uint8 (-10) = 0 ∧ to_uint8 0 = 0 ∧ to_uint8 (127.6) = 128
    ∧ to_uint8 255 = 255 ∧ to_uint8 300 = 255 := by
  have hneg : ((-10 : ℚ) + 1/2) = -(19/2) := by norm_num
  refine ⟨?_, ?_, ?_, ?_, ?_, ?_⟩
  · unfold to_uint8 truncToInt
    by_cases h : 0 ≤ v + 1/2
    · simp only [h, if_true]
      have h0 : (0 : ℤ) ≤ ⌊v + 1/2⌋ := Int.floor_nonneg.mpr h
      by_cases h255 : ⌊v + 1/2⌋ > 255
      · simp only [h255, if_true]
        omega
      · simp only [h255, if_false]
        split
        · omega
        · omega
    · simp only [h, if_false]
      push_neg at h
      have hc : ⌈v + 1/2⌉ ≤ 0 := Int.ceil_le.mpr (by exact_mod_cast h.le)
      have hf : ⌊v + 1/2⌋ ≤ ⌈v + 1/2⌉ := Int.floor_le_ceil _
      split
      · omega
      · split
        · omega
        · omega
  all_goals simp only [to_uint8, truncToInt, hneg, Int.ceil_neg] <;> norm_num <;> omega

/-- Claim C7 witness: the rounding formula applied at the input 1. -/
theorem claim7_witness :
    ((to_uint8 1 : ℕ) : ℤ) = max 0 (min 255 ⌊(1 : ℚ) + 1/2⌋)
    ∧ to_uint8 (-10) = 0 ∧ to_uint8 0 = 0 ∧ to_uint8 (127.6) = 128
    ∧ to_uint8 255 = 255 ∧ to_uint8 300 = 255 :=
  claim7_to_uint8 1

/-- Claim C8: on attachment before start, if no start value is resolved
and the staging dirty bit of the bound property is set on the target, the
staging value of that property is captured as the start value; and in
every case the staging copy of that property is then set to finalValue. -/
theorem claim8_onAttached (a : BaseRenderNodeAnimator) (p : RenderProperty)
    (target : RenderNode)
    (hstg : a.mStagingPlayState = PlayState.NOT_STARTED) :
    (a.mHasStartValue = false → target.dirtyFields (propertyAccess p).dirtyMask = true →
      (onAttached a p target).map (fun x => (x.1.mFromValue, x.1.mHasStartValue)) =
        some ((propertyAccess p).getter target.stagingProperties, true))
    ∧ (onAttached a p target).map
        (fun x => (propertyAccess p).getter x.2.stagingProperties) =
      some a.mFinalValue := by
  constructor
  · intro hsv hd
    simp [onAttached, hsv, hd, setStartValue, checkMutable, hstg, doSetStartValue]
  · by_cases hsv : a.mHasStartValue = false
    · by_cases hd : target.dirtyFields (propertyAccess p).dirtyMask = true
      · simp [onAttached, hsv, hd, setStartValue, checkMutable, hstg, doSetStartValue,
          propertyAccess_get_set]
      · simp [onAttached, hsv, hd, propertyAccess_get_set]
    · simp [onAttached, hsv, propertyAccess_get_set]

/-- Claim C8 witness: a fresh alpha animator attached to a target whose
alpha staging bit is dirty. -/
theorem claim8_witness :
    ((BaseRenderNodeAnimator.ofFinalValue 100).mHasStartValue = false →
      nodeEx.dirtyFields (propertyAccess RenderProperty.ALPHA).dirtyMask = true →
      (onAttached (BaseRenderNodeAnimator.ofFinalValue 100) RenderProperty.ALPHA nodeEx).map
          (fun x => (x.1.mFromValue, x.1.mHasStartValue)) =
        some ((propertyAccess RenderProperty.ALPHA).getter nodeEx.stagingProperties, true))
    ∧ (onAttached (BaseRenderNodeAnimator.ofFinalValue 100) RenderProperty.ALPHA nodeEx).map
        (fun x => (propertyAccess RenderProperty.ALPHA).getter x.2.stagingProperties) =
      some (BaseRenderNodeAnimator.ofFinalValue 100).mFinalValue :=
  claim8_onAttached (BaseRenderNodeAnimator.ofFinalValue 100) RenderProperty.ALPHA nodeEx rfl

/-- Claim C9: in the accessor table, the rows for the distinct properties
TRANSLATION_X and TRANSLATION_Z both carry the dirty mask
RenderNode TRANSLATION_X, and these are the only two distinct properties
sharing a dirty mask, so the table is not a one-bit-per-property
mapping. -/
theorem claim9_lut_dirty_mask :
    (propertyAccess RenderProperty.TRANSLATION_X).dirtyMask = DirtyPropertyMask.TRANSLATION_X
    ∧ (propertyAccess RenderProperty.TRANSLATION_Z).dirtyMask = DirtyPropertyMask.TRANSLATION_X
    ∧ ∀ p q : RenderProperty,
        ((propertyAccess p).dirtyMask = (propertyAccess q).dirtyMask ↔
          (p = q ∨ (p = RenderProperty.TRANSLATION_X ∧ q = RenderProperty.TRANSLATION_Z)
            ∨ (p = RenderProperty.TRANSLATION_Z ∧ q = RenderProperty.TRANSLATION_X))) := by
  refine ⟨rfl, rfl, ?_⟩
  decide

/-- Claim C10 counterexample: a default-configured animator cannot be
evaluated at all: committing it to Running aborts (the model yields none)
while installing the default interpolator, so it never animates toward its
final value. -/
theorem claim10_counterexample :
    pushStaging (setStagingPlayState (BaseRenderNodeAnimator.ofFinalValue 100) PlayState.RUNNING)
      0 id { frameTimeMs := 16, hasAnimations := false, animationHook := false } = none := by
  rfl

/-- Claim C10 (amended): a freshly constructed animator has duration 300,
start delay 0, start time 0, both play states NotStarted, no resolved
start value, no interpolator, fromValue 0 and deltaValue 0; however, left
in this default configuration it never animates, because the commit that
would start it aborts fatally while installing the default
interpolator. -/
theorem claim10_defaults (v : ℚ) :
    (BaseRenderNodeAnimator.ofFinalValue v).mFinalValue = v
    ∧ (BaseRenderNodeAnimator.ofFinalValue v).mDuration = 300
    ∧ (BaseRenderNodeAnimator.ofFinalValue v).mStartDelay = 0
    ∧ (BaseRenderNodeAnimator.ofFinalValue v).mStartTime = 0
    ∧ (BaseRenderNodeAnimator.ofFinalValue v).mStagingPlayState = PlayState.NOT_STARTED
    ∧ (BaseRenderNodeAnimator.ofFinalValue v).mPlayState = PlayState.NOT_STARTED
    ∧ (BaseRenderNodeAnimator.ofFinalValue v).mHasStartValue = false
    ∧ (BaseRenderNodeAnimator.ofFinalValue v).mInterpolator = none
    ∧ (BaseRenderNodeAnimator.ofFinalValue v).mFromValue = 0
    ∧ (BaseRenderNodeAnimator.ofFinalValue v).mDeltaValue = 0
    ∧ pushStaging (setStagingPlayState (BaseRenderNodeAnimator.ofFinalValue v) PlayState.RUNNING)
        0 id { frameTimeMs := 16, hasAnimations := false, animationHook := false } = none := by
  refine ⟨rfl, rfl, rfl, rfl, rfl, rfl, rfl, rfl, rfl, rfl, ?_⟩
  rfl

/-- Claim C10 witness: the defaults at final value 100. -/
theorem claim10_witness :
    (BaseRenderNodeAnimator.ofFinalValue 100).mFinalValue = 100
    ∧ (BaseRenderNodeAnimator.ofFinalValue 100).mDuration = 300
    ∧ (BaseRenderNodeAnimator.ofFinalValue 100).mStartDelay = 0
    ∧ (BaseRenderNodeAnimator.ofFinalValue 100).mStartTime = 0
    ∧ (BaseRenderNodeAnimator.ofFinalValue 100).mStagingPlayState = PlayState.NOT_STARTED
    ∧ (BaseRenderNodeAnimator.ofFinalValue 100).mPlayState = PlayState.NOT_STARTED
    ∧ (BaseRenderNodeAnimator.ofFinalValue 100).mHasStartValue = false
    ∧ (BaseRenderNodeAnimator.ofFinalValue 100).mInterpolator = none
    ∧ (BaseRenderNodeAnimator.ofFinalValue 100).mFromValue = 0
    ∧ (BaseRenderNodeAnimator.ofFinalValue 100).mDeltaValue = 0
    ∧ pushStaging (setStagingPlayState (BaseRenderNodeAnimator.ofFinalValue 100) PlayState.RUNNING)
        0 id { frameTimeMs := 16, hasAnimations := false, animationHook := false } = none :=
  claim10_defaults 100
